import Mathlib

/-!
Shallow embedding of the salt-state-gitlab repository
(src/modules/gitlab.py, the Resource Accessor layer, and
src/states/gitlab.py, the Reconciler layer).

The remote GitLab server contents observed during one invocation are
modelled by the read-only structure GitlabState; every outbound remote
call that mutates server state is recorded in a trace of RemoteCall
events, and reads are answered from the GitlabState snapshot.  Python
scalar values that flow through dynamically typed positions are
modelled by PyVal, and the single-entry result dictionaries returned by
the accessor functions by GetRet.  The salt loader dictionary lookups
and Python runtime errors that abort a call are modelled with Except.
-/

namespace Gitlab

/-- Python scalar values as they flow through the dynamically typed
arguments of src/modules/gitlab.py and src/states/gitlab.py. -/
inductive PyVal where
  | vnone
  | vstr (s : String)
  | vbool (b : Bool)
  | vint (n : Nat)
deriving DecidableEq, Repr

/-- Python truthiness of a PyVal, as used by the `if value:` and
`if not value:` tests in src/modules/gitlab.py. -/
def PyVal.truthy : PyVal → Bool
  | PyVal.vnone => false
  | PyVal.vstr s => !(s == "")
  | PyVal.vbool b => b
  | PyVal.vint n => !(n == 0)

/-- Python str() of a PyVal, as used by the `.format(...)` calls that
build comment strings in src/states/gitlab.py. -/
def PyVal.pyStr : PyVal → String
  | PyVal.vnone => "None"
  | PyVal.vstr s => s
  | PyVal.vbool b => if b then "True" else "False"
  | PyVal.vint n => toString n

/-- Python truthiness of an optional string argument (absent or empty
strings are falsy). -/
def truthyS : Option String → Bool
  | Option.none => false
  | some s => !(s == "")

/-- One project dictionary as the remote API returns it.  The fields are
the ones src/states/gitlab.py and src/modules/gitlab.py read:
id, name, path_with_namespace, description, enabled and email. -/
structure Project where
  id : Nat
  name : String
  path_with_namespace : String
  description : PyVal
  enabled : PyVal
  email : PyVal
deriving DecidableEq, Repr

/-- One project hook dictionary (fields read by the code: id, url). -/
structure Hook where
  id : Nat
  url : String
deriving DecidableEq, Repr

/-- One deploy key dictionary (fields read by the code: id, title, key). -/
structure DeployKey where
  id : Nat
  title : String
  key : String
deriving DecidableEq, Repr

/-- One user dictionary (fields read by the code: id, name, username,
email). -/
structure User where
  id : Nat
  name : String
  username : String
  email : String
deriving DecidableEq, Repr

/-- The remote GitLab server contents as observed during one
invocation.  Hooks and deploy keys are stored with the id of the
project that owns them. -/
structure GitlabState where
  projects : List Project
  hooks : List (Nat × Hook)
  deploykeys : List (Nat × DeployKey)
  users : List User
deriving DecidableEq, Repr

/-- The for-loop-with-break pattern used by every by-name resolver in
src/modules/gitlab.py: scan the list and return the first element
satisfying the predicate. -/
def firstMatch {α : Type} (f : α → Bool) : List α → Option α
  | [] => Option.none
  | x :: rest => if f x then some x else firstMatch f rest

/-- Model of the external client: git.getprojects() lists all
projects. -/
def getprojects (g : GitlabState) : List Project := g.projects

/-- Model of the external client: git.getproject(id) returns the
project with the given numeric id, if any. -/
def getproject (g : GitlabState) (id : PyVal) : Option Project :=
  match id with
  | PyVal.vint n => g.projects.find? (fun p => p.id == n)
  | _ => Option.none

/-- Model of the external client: git.getprojecthooks(pid) lists the
hooks of one project. -/
def getprojecthooks (g : GitlabState) (pid : Nat) : List Hook :=
  (g.hooks.filter (fun x => x.1 == pid)).map Prod.snd

/-- Model of the external client: git.getdeploykeys(pid) lists the
deploy keys of one project. -/
def getdeploykeys (g : GitlabState) (pid : Nat) : List DeployKey :=
  (g.deploykeys.filter (fun x => x.1 == pid)).map Prod.snd

/-- Model of the external client: git.getusers() lists all users. -/
def getusers (g : GitlabState) : List User := g.users

/-- Model of the external client: git.getuser(id) returns the user with
the given numeric id, if any. -/
def getuser (g : GitlabState) (id : PyVal) : Option User :=
  match id with
  | PyVal.vint n => g.users.find? (fun u => u.id == n)
  | _ => Option.none

/-- _get_project_by_id from src/modules/gitlab.py. -/
def _get_project_by_id (g : GitlabState) (id : PyVal) : Option Project :=
  getproject g id

/-- _get_project_by_name from src/modules/gitlab.py: scan
git.getprojects() for the first project whose path_with_namespace
equals the requested name. -/
def _get_project_by_name (g : GitlabState) (name : String) : Option Project :=
  firstMatch (fun project => project.path_with_namespace == name) (getprojects g)

/-- _get_user_by_name from src/modules/gitlab.py: scan git.getusers()
for the first user whose username equals the requested one. -/
def _get_user_by_name (g : GitlabState) (username : String) : Option User :=
  firstMatch (fun user => user.username == username) (getusers g)

/-- _get_user_by_id from src/modules/gitlab.py. -/
def _get_user_by_id (g : GitlabState) (id : PyVal) : Option User :=
  getuser g id

/-- Model of the external client: git.projects.get accepts a numeric id
or a namespace/path string (resolved against path_with_namespace, the
same scan _get_project_by_name performs). -/
def projectsGet (g : GitlabState) (pid : PyVal) : Option Project :=
  match pid with
  | PyVal.vint n => g.projects.find? (fun p => p.id == n)
  | PyVal.vstr s => _get_project_by_name g s
  | _ => Option.none

/-- Model of the external client: the fresh id the server assigns to a
created project; only this id is consumed downstream
(project_get(data[id])), so nothing else of the creation payload is
modelled. -/
def freshProjectId (g : GitlabState) : Nat :=
  (g.projects.map Project.id).foldr Nat.max 0 + 1

/-- Model of the external client: the fresh id the server assigns to a
created user; only this id is consumed downstream
(user_get(data[id])). -/
def freshUserId (g : GitlabState) : Nat :=
  (g.users.map User.id).foldr Nat.max 0 + 1

/-- One outbound remote call recorded in the trace.  login is the
session-establishing call of auth; every other constructor is a
mutating endpoint (create, update or delete). -/
inductive RemoteCall where
  | login (user password : PyVal)
  | createproject (name : String) (description : PyVal) (enabled : PyVal) (profile : PyVal)
  | projectsUpdate (project_id : PyVal) (name : PyVal) (email : PyVal) (enabled : PyVal)
  | projectsDelete (project_id : PyVal)
  | addprojecthook (project_id : Nat) (url : String) (issues push merge_requests tag_push : PyVal)
  | adddeploykey (project_id : Nat) (title : String) (key : String)
  | createuser (name username password email : PyVal) (kwargs : List (String × PyVal))
  | edituser (user_id : PyVal) (name username email : PyVal) (password : Option PyVal)
deriving DecidableEq, Repr

/-- Whether a recorded remote call mutates server state (everything but
the login call). -/
def RemoteCall.isMutating : RemoteCall → Bool
  | RemoteCall.login _ _ => false
  | _ => true

/-- Number of mutating remote calls in a trace. -/
def mutCount (tr : List RemoteCall) : Nat :=
  (tr.filter RemoteCall.isMutating).length

/-- The authenticated session handle returned by auth: the base url it
was built with and the token, when the token path was taken. -/
structure Session where
  url : PyVal
  token : Option PyVal
deriving DecidableEq, Repr

/-- The merged salt configuration consulted by
__salt__[config.get]. -/
abbrev Cfg := List (String × PyVal)

/-- The **connection_args keyword bag threaded through every
function. -/
abbrev ConnArgs := List (String × PyVal)

/-- __salt__[config.get](key, default). -/
def cfgGet (cfg : Cfg) (key : String) (default : PyVal) : PyVal :=
  (cfg.lookup key).getD default

/-- The nested get helper of auth in src/modules/gitlab.py: look for
connection_KEY in connection_args first, then fall back to the
configuration value gitlab.KEY, then to the default. -/
def authGet (cfg : Cfg) (cargs : ConnArgs) (key : String) (default : PyVal) : PyVal :=
  match cargs.lookup ("connection_" ++ key) with
  | some v => v
  | Option.none => cfgGet cfg ("gitlab." ++ key) default

/-- auth from src/modules/gitlab.py: a truthy token yields a
token-bearing session with no login call; otherwise the session is
established by git.login(user, password). -/
def auth (cfg : Cfg) (cargs : ConnArgs) : Session × List RemoteCall :=
  let user := authGet cfg cargs "user" (PyVal.vstr "admin")
  let password := authGet cfg cargs "password" (PyVal.vstr "ADMIN")
  let token := authGet cfg cargs "token" PyVal.vnone
  let url := authGet cfg cargs "url" (PyVal.vstr "https://localhost/")
  if token.truthy then
    ({ url := url, token := some token }, [])
  else
    ({ url := url, token := Option.none }, [RemoteCall.login user password])

/-- The single-entry result dictionaries of the accessor layer: either
a dictionary with one resource keyed by its name-like field, or an
Error dictionary. -/
inductive GetRet (α : Type) where
  | entry (key : String) (val : α)
  | error (msg : String)
deriving DecidableEq, Repr

/-- The test the state layer performs with `Error not in ret`: the
dictionary has the key Error. -/
def GetRet.hasError {α : Type} : GetRet α → Bool
  | GetRet.entry k _ => k == "Error"
  | GetRet.error _ => true

/-- Python subscripting ret[key] of a single-entry result dictionary;
a missing key raises KeyError, modelled by Option.none. -/
def GetRet.lookup {α : Type} : GetRet α → String → Option α
  | GetRet.entry k v, key => if k == key then some v else Option.none
  | GetRet.error _, _ => Option.none

/-- Errors that abort a call at the Python level: a dictionary KeyError,
a TypeError, an exception raised by the external client, or a salt
loader lookup of a module function that does not exist. -/
inductive Err where
  | keyError (k : String)
  | typeError (msg : String)
  | notFound (what : String)
  | missingFunction (f : String)
deriving DecidableEq, Repr

/-- The possible returns of project_update in src/modules/gitlab.py:
the Error dictionary, or the implicit None when the update went
through. -/
inductive UpdRet where
  | okNone
  | errorDict (msg : String)
deriving DecidableEq, Repr

/-- The possible returns of project_delete in src/modules/gitlab.py:
the confirmation string, or the Error dictionary. -/
inductive DelRet where
  | msg (s : String)
  | error (s : String)
deriving DecidableEq, Repr

/-- The function names src/modules/gitlab.py defines, i.e. the
gitlab.NAME entries the salt loader can resolve for this module. -/
def gitlabModuleFunctions : List String :=
  ["auth", "hook_get", "hook_list", "hook_create", "hook_delete",
   "deploykey_create", "deploykey_delete", "deploykey_get", "deploykey_list",
   "project_create", "project_delete", "project_get", "project_list",
   "project_update", "user_list", "user_get", "user_create", "user_delete",
   "user_update"]

/-- project_get from src/modules/gitlab.py: resolve by name when a
truthy name is given, else by id, and return the project keyed by its
name field, or the Error dictionary. -/
def project_get (g : GitlabState) (cfg : Cfg) (cargs : ConnArgs)
    (project_id : Option PyVal) (name : Option String) :
    GetRet Project × List RemoteCall :=
  let tr := (auth cfg cargs).2
  match (if truthyS name then _get_project_by_name g (name.getD "")
         else _get_project_by_id g (project_id.getD PyVal.vnone)) with
  | Option.none => (GetRet.error "Error in retrieving project", tr)
  | some project => (GetRet.entry project.name project, tr)

/-- hook_get from src/modules/gitlab.py: resolve the project (by name
when a truthy project_name is given, else by id), then scan its hooks
for the first one with the requested url. -/
def hook_get (g : GitlabState) (cfg : Cfg) (cargs : ConnArgs) (hook_url : String)
    (project_id : Option PyVal) (project_name : Option String) :
    GetRet Hook × List RemoteCall :=
  let tr := (auth cfg cargs).2
  match (if truthyS project_name then _get_project_by_name g (project_name.getD "")
         else _get_project_by_id g (project_id.getD PyVal.vnone)) with
  | Option.none => (GetRet.error "Unable to resolve project", tr)
  | some project =>
    match firstMatch (fun hook => hook.url == hook_url) (getprojecthooks g project.id) with
    | some hook => (GetRet.entry hook.url hook, tr)
    | Option.none => (GetRet.error "Could not find hook for the specified project", tr)

/-- hook_create from src/modules/gitlab.py: resolve the project, add
the hook unless one with the same url already exists, then re-read it
via hook_get (called without connection_args). -/
def hook_create (g : GitlabState) (cfg : Cfg) (cargs : ConnArgs) (hook_url : String)
    (issues merge_requests push tag_push : PyVal)
    (project_id : Option PyVal) (project_name : Option String) :
    GetRet Hook × List RemoteCall :=
  let tr := (auth cfg cargs).2
  match (if truthyS project_name then _get_project_by_name g (project_name.getD "")
         else _get_project_by_id g (project_id.getD PyVal.vnone)) with
  | Option.none => (GetRet.error "Unable to resolve project", tr)
  | some project =>
    let create := !((getprojecthooks g project.id).any (fun hook => hook.url == hook_url))
    let tr := tr ++ (if create then
        [RemoteCall.addprojecthook project.id hook_url issues push merge_requests tag_push]
      else [])
    let hg := hook_get g cfg [] hook_url (some (PyVal.vint project.id)) Option.none
    (hg.1, tr ++ hg.2)

/-- deploykey_get from src/modules/gitlab.py: resolve the project, then
scan its deploy keys for the first one with the requested title. -/
def deploykey_get (g : GitlabState) (cfg : Cfg) (cargs : ConnArgs) (title : String)
    (project_id : Option PyVal) (project_name : Option String) :
    GetRet DeployKey × List RemoteCall :=
  let tr := (auth cfg cargs).2
  match (if truthyS project_name then _get_project_by_name g (project_name.getD "")
         else _get_project_by_id g (project_id.getD PyVal.vnone)) with
  | Option.none => (GetRet.error "Unable to resolve project", tr)
  | some project =>
    match firstMatch (fun dkey => dkey.title == title) (getdeploykeys g project.id) with
    | some dkey => (GetRet.entry dkey.title dkey, tr)
    | Option.none => (GetRet.error "Could not find deploy key for the specified project", tr)

/-- deploykey_create from src/modules/gitlab.py: resolve the project,
add the key unless one with the same title already exists, then re-read
it via deploykey_get (called without connection_args). -/
def deploykey_create (g : GitlabState) (cfg : Cfg) (cargs : ConnArgs)
    (title : String) (key : String)
    (project_id : Option PyVal) (project_name : Option String) :
    GetRet DeployKey × List RemoteCall :=
  let tr := (auth cfg cargs).2
  match (if truthyS project_name then _get_project_by_name g (project_name.getD "")
         else _get_project_by_id g (project_id.getD PyVal.vnone)) with
  | Option.none => (GetRet.error "Unable to resolve project", tr)
  | some project =>
    let create := !((getdeploykeys g project.id).any (fun dkey => dkey.title == title))
    let tr := tr ++ (if create then
        [RemoteCall.adddeploykey project.id title key]
      else [])
    let dg := deploykey_get g cfg [] title (some (PyVal.vint project.id)) Option.none
    (dg.1, tr ++ dg.2)

/-- project_create from src/modules/gitlab.py: git.createproject is
always called with enabled=True (a literal in the source) whatever the
enabled argument holds, then the created project is re-read via
project_get with the fresh id. -/
def project_create (g : GitlabState) (cfg : Cfg) (cargs : ConnArgs)
    (name : String) (description enabled profile : PyVal) :
    GetRet Project × List RemoteCall :=
  let tr := (auth cfg cargs).2
  let tr := tr ++ [RemoteCall.createproject name description (PyVal.vbool true) profile]
  let data : Option Nat := some (freshProjectId g)
  match data with
  | Option.none => (GetRet.error "Unable to create project", tr)
  | some newId =>
    let pg := project_get g cfg (cargs ++ [("profile", profile)])
      (some (PyVal.vint newId)) Option.none
    (pg.1, tr ++ pg.2)

/-- project_delete from src/modules/gitlab.py: when a truthy name is
given the id is resolved by scanning git.projects.list() for a project
with that name field; a falsy resolved id yields the Error dictionary,
else the project is deleted. -/
def project_delete (g : GitlabState) (cfg : Cfg) (cargs : ConnArgs)
    (project_id : Option PyVal) (name : Option String) (_profile : PyVal) :
    DelRet × List RemoteCall :=
  let tr := (auth cfg cargs).2
  let pid : PyVal :=
    if truthyS name then
      match firstMatch (fun p => p.name == name.getD "") g.projects with
      | some p => PyVal.vint p.id
      | Option.none => project_id.getD PyVal.vnone
    else project_id.getD PyVal.vnone
  if pid.truthy = false then (DelRet.error "Unable to resolve project id", tr)
  else
    (DelRet.msg ("Tenant ID " ++ pid.pyStr ++ " deleted" ++
       (if truthyS name then " (" ++ name.getD "" ++ ")" else "")),
     tr ++ [RemoteCall.projectsDelete pid])

/-- project_update from src/modules/gitlab.py: a falsy project_id is
resolved by scanning git.projects.list() for a project whose name field
equals the name argument; the current project is then read back and any
falsy name or email argument, and a None enabled argument, are replaced
by the current values before the single git.projects.update call. -/
def project_update (g : GitlabState) (cfg : Cfg) (cargs : ConnArgs)
    (project_id name email enabled : PyVal) :
    Except Err UpdRet × List RemoteCall :=
  let tr := (auth cfg cargs).2
  let pid :=
    if project_id.truthy then project_id
    else
      match firstMatch (fun p => name == PyVal.vstr p.name) g.projects with
      | some p => PyVal.vint p.id
      | Option.none => project_id
  if pid.truthy = false then
    (Except.ok (UpdRet.errorDict "Unable to resolve project id"), tr)
  else
    match projectsGet g pid with
    | Option.none => (Except.error (Err.notFound "project"), tr)
    | some project =>
      let name := if name.truthy then name else PyVal.vstr project.name
      let email := if email.truthy then email else project.email
      let enabled := if enabled == PyVal.vnone then project.enabled else enabled
      (Except.ok UpdRet.okNone, tr ++ [RemoteCall.projectsUpdate pid name email enabled])

/-- user_get from src/modules/gitlab.py: resolve by username when a
truthy username is given, else by id, and return the user keyed by its
username field, or the Error dictionary. -/
def user_get (g : GitlabState) (cfg : Cfg) (cargs : ConnArgs)
    (user_id : Option PyVal) (username : Option String) :
    GetRet User × List RemoteCall :=
  let tr := (auth cfg cargs).2
  match (if truthyS username then _get_user_by_name g (username.getD "")
         else _get_user_by_id g (user_id.getD PyVal.vnone)) with
  | Option.none => (GetRet.error "Error in retrieving user", tr)
  | some user => (GetRet.entry user.username user, tr)

/-- user_create from src/modules/gitlab.py: a can_create_group default
is injected into connection_args, git.createuser is called once, then
the created user is re-read via user_get with the fresh id. -/
def user_create (g : GitlabState) (cfg : Cfg) (cargs : ConnArgs)
    (name username password email : PyVal) :
    GetRet User × List RemoteCall :=
  let cargs := if (cargs.lookup "can_create_group").isSome then cargs
               else cargs ++ [("can_create_group", PyVal.vbool false)]
  let tr := (auth cfg cargs).2
  let tr := tr ++ [RemoteCall.createuser name username password email cargs]
  let data : Option Nat := some (freshUserId g)
  match data with
  | Option.none => (GetRet.error "Unable to create user", tr)
  | some newId =>
    let ug := user_get g cfg cargs (some (PyVal.vint newId)) Option.none
    (ug.1, tr ++ ug.2)

/-- user_update from src/modules/gitlab.py: a falsy user_id takes the
branch that calls _get_user_by_name with a single argument, which
raises a TypeError; otherwise the current user is read back with
git.getuser, falsy name, username and email arguments are replaced by
the current values, and git.edituser is called once, with the password
only when it is truthy. -/
def user_update (g : GitlabState) (cfg : Cfg) (cargs : ConnArgs)
    (user_id name username password email : PyVal) :
    Except Err Bool × List RemoteCall :=
  let tr := (auth cfg cargs).2
  if user_id.truthy = false then
    (Except.error (Err.typeError "_get_user_by_name missing positional argument"), tr)
  else
    match getuser g user_id with
    | Option.none => (Except.error (Err.notFound "user"), tr)
    | some user =>
      let name := if name.truthy then name else PyVal.vstr user.name
      let username := if username.truthy then username else PyVal.vstr user.username
      let email := if email.truthy then email else PyVal.vstr user.email
      if password.truthy then
        (Except.ok true, tr ++ [RemoteCall.edituser user_id name username email (some password)])
      else
        (Except.ok true, tr ++ [RemoteCall.edituser user_id name username email Option.none])

/-- The result dictionary every reconciler in src/states/gitlab.py
builds: name, changes, result and comment.  The changes mapping is kept
as an association list in insertion order. -/
structure StateRet where
  name : PyVal
  changes : List (String × String)
  result : Bool
  comment : String
deriving DecidableEq, Repr

/-- project_present from src/states/gitlab.py.  The three positional
arguments of each gitlab.project_update call bind to project_id, name
and email of the module function, and the description and enabled
checks each issue their own update call. -/
def project_present (g : GitlabState) (cfg : Cfg) (cargs : ConnArgs)
    (name : String) (description enabled profile : PyVal) :
    Except Err StateRet × List RemoteCall :=
  let pg := project_get g cfg cargs Option.none (some name)
  if pg.1.hasError then
    let pc := project_create g cfg cargs name description enabled profile
    (Except.ok { name := PyVal.vstr name, changes := [("Tenant", "Created")], result := true,
                 comment := "Tenant \"" ++ name ++ "\" has been added" }, pg.2 ++ pc.2)
  else
    match pg.1.lookup name with
    | Option.none => (Except.error (Err.keyError name), pg.2)
    | some p =>
      let args1 := cargs ++ [("profile", profile)]
      if p.description ≠ description then
        let u1 := project_update g cfg args1 (PyVal.vstr name) description enabled PyVal.vnone
        match u1.1 with
        | Except.error e => (Except.error e, pg.2 ++ u1.2)
        | Except.ok _ =>
          if p.enabled ≠ enabled then
            let u2 := project_update g cfg args1 (PyVal.vstr name) description enabled PyVal.vnone
            match u2.1 with
            | Except.error e => (Except.error e, pg.2 ++ u1.2 ++ u2.2)
            | Except.ok _ =>
              (Except.ok { name := PyVal.vstr name,
                           changes := [("Description", "Updated"),
                             ("Enabled", "Now " ++ enabled.pyStr)],
                           result := true,
                           comment := "Tenant \"" ++ name ++ "\" has been updated" },
               pg.2 ++ u1.2 ++ u2.2)
          else
            (Except.ok { name := PyVal.vstr name, changes := [("Description", "Updated")],
                         result := true,
                         comment := "Tenant \"" ++ name ++ "\" has been updated" },
             pg.2 ++ u1.2)
      else if p.enabled ≠ enabled then
        let u2 := project_update g cfg args1 (PyVal.vstr name) description enabled PyVal.vnone
        match u2.1 with
        | Except.error e => (Except.error e, pg.2 ++ u2.2)
        | Except.ok _ =>
          (Except.ok { name := PyVal.vstr name,
                       changes := [("Enabled", "Now " ++ enabled.pyStr)], result := true,
                       comment := "Tenant \"" ++ name ++ "\" has been updated" },
           pg.2 ++ u2.2)
      else
        (Except.ok { name := PyVal.vstr name, changes := [], result := true,
                     comment := "Tenant \"" ++ name ++ "\" already exists" }, pg.2)

/-- project_absent from src/states/gitlab.py. -/
def project_absent (g : GitlabState) (cfg : Cfg) (cargs : ConnArgs)
    (name : String) (profile : PyVal) :
    Except Err StateRet × List RemoteCall :=
  let pg := project_get g cfg cargs Option.none (some name)
  if pg.1.hasError then
    (Except.ok { name := PyVal.vstr name, changes := [], result := true,
                 comment := "Tenant \"" ++ name ++ "\" is already absent" }, pg.2)
  else
    let pd := project_delete g cfg cargs Option.none (some name) profile
    (Except.ok { name := PyVal.vstr name, changes := [("Tenant", "Deleted")], result := true,
                 comment := "Tenant \"" ++ name ++ "\" has been deleted" }, pg.2 ++ pd.2)

/-- deploykey_present from src/states/gitlab.py.  The fs argument
models the local filesystem read taken when the key argument starts
with a slash. -/
def deploykey_present (g : GitlabState) (cfg : Cfg) (cargs : ConnArgs)
    (fs : String → String) (name key project : String) :
    Except Err StateRet × List RemoteCall :=
  let dg := deploykey_get g cfg cargs name Option.none (some project)
  let key := if key.startsWith "/" then fs key else key
  if dg.1.hasError = false then
    (Except.ok { name := PyVal.vstr name, changes := [], result := true,
                 comment := "Deploy key \"" ++ name ++ "\" already exists in project "
                   ++ project },
     dg.2)
  else
    let dc := deploykey_create g cfg cargs name key Option.none (some project)
    (Except.ok { name := PyVal.vstr name, changes := [("Deploykey", "Created")], result := true,
                 comment := "Deploy key \"" ++ name ++ "\" has been added" }, dg.2 ++ dc.2)

/-- deploykey_absent from src/states/gitlab.py: after building its
result skeleton it looks up gitlab.service_get in the salt functions
dictionary; src/modules/gitlab.py defines no service_get (see
gitlabModuleFunctions), so the lookup raises before any remote call is
made. -/
def deploykey_absent (_g : GitlabState) (_cfg : Cfg) (_cargs : ConnArgs)
    (_name : String) (_profile : PyVal) :
    Except Err StateRet × List RemoteCall :=
  (Except.error (Err.missingFunction "gitlab.service_get"), [])

/-- hook_present from src/states/gitlab.py. -/
def hook_present (g : GitlabState) (cfg : Cfg) (cargs : ConnArgs)
    (name project : String) :
    Except Err StateRet × List RemoteCall :=
  let hg := hook_get g cfg cargs name Option.none (some project)
  if hg.1.hasError = false then
    (Except.ok { name := PyVal.vstr name, changes := [], result := true,
                 comment := "Hook \"" ++ name ++ "\" already exists in project " ++ project },
     hg.2)
  else
    let hc := hook_create g cfg cargs name (PyVal.vbool false) (PyVal.vbool false)
      (PyVal.vbool false) (PyVal.vbool false) Option.none (some project)
    (Except.ok { name := PyVal.vstr name, changes := [("Hook", "Created")], result := true,
                 comment := "Hook \"" ++ name ++ "\" has been added" }, hg.2 ++ hc.2)

/-- user_present from src/states/gitlab.py.  When the user exists the
update call is unconditional and passes the literal string foo@bar.com
as the email; the comparisons only fill in the changes mapping. -/
def user_present (g : GitlabState) (cfg : Cfg) (cargs : ConnArgs)
    (username : String) (name email password : PyVal) :
    Except Err StateRet × List RemoteCall :=
  let ug := user_get g cfg cargs Option.none (some username)
  if ug.1.hasError = false then
    match ug.1.lookup username with
    | Option.none => (Except.error (Err.keyError username), ug.2)
    | some u =>
      let ch0 : List (String × String) := []
      let ch1 := if u.username ≠ username then ch0 ++ [("Username", "Now " ++ username)] else ch0
      let ch2 := if PyVal.vstr u.email ≠ email then ch1 ++ [("Email", "Now " ++ email.pyStr)] else ch1
      let ch3 := if PyVal.vstr u.name ≠ name then ch2 ++ [("Name", "Now " ++ name.pyStr)] else ch2
      let ch4 := if password.truthy then ch3 ++ [("Password", "Now " ++ password.pyStr)] else ch3
      let uu := user_update g cfg cargs (PyVal.vint u.id) name (PyVal.vstr username)
        password (PyVal.vstr "foo@bar.com")
      match uu.1 with
      | Except.error e => (Except.error e, ug.2 ++ uu.2)
      | Except.ok _ =>
        (Except.ok { name := name, changes := ch4, result := true,
                     comment := "User \"" ++ name.pyStr
                       ++ "\" has been updated and debug email " ++ email.pyStr },
         ug.2 ++ uu.2)
  else
    let uc := user_create g cfg cargs name (PyVal.vstr username) password email
    (Except.ok { name := name, changes := [("User", "Created")], result := true,
                 comment := "User \"" ++ name.pyStr ++ "\" has been added" }, ug.2 ++ uc.2)

/-- branch_present from src/states/gitlab.py: after building its result
skeleton it looks up gitlab.branch_get in the salt functions
dictionary; src/modules/gitlab.py defines no branch_get (see
gitlabModuleFunctions), so the lookup raises before any remote call is
made. -/
def branch_present (_g : GitlabState) (_cfg : Cfg) (_cargs : ConnArgs)
    (_project _name _ref : String) :
    Except Err StateRet × List RemoteCall :=
  (Except.error (Err.missingFunction "gitlab.branch_get"), [])

/-- Whether a reconciler outcome carries a result field that is true:
every returned result record reports success (aborted calls return no
record at all). -/
def resultFlagOk (x : Except Err StateRet × List RemoteCall) : Bool :=
  match x.1 with
  | Except.ok r => r.result
  | Except.error _ => true

/-- Observed remote state with one project whose description and
enabled flag both differ from the desired values used alongside it. -/
def gC1 : GitlabState :=
  { projects := [{ id := 1, name := "p", path_with_namespace := "p",
                   description := PyVal.vstr "old", enabled := PyVal.vbool false,
                   email := PyVal.vnone }],
    hooks := [], deploykeys := [], users := [] }

/-- Observed remote state with one user whose tracked attributes all
match the desired state used alongside it. -/
def gC2x : GitlabState :=
  { projects := [], hooks := [], deploykeys := [],
    users := [{ id := 1, name := "n", username := "u", email := "e" }] }

/-- Observed remote state with one project, one hook of that project
and one deploy key of that project, all matching the desired state
used alongside it. -/
def gC2w : GitlabState :=
  { projects := [{ id := 1, name := "p", path_with_namespace := "p",
                   description := PyVal.vstr "d", enabled := PyVal.vbool true,
                   email := PyVal.vnone }],
    hooks := [(1, { id := 5, url := "h" })],
    deploykeys := [(1, { id := 6, title := "k", key := "K" })],
    users := [] }

/-- Observed remote state with no resources at all. -/
def gEmpty : GitlabState :=
  { projects := [], hooks := [], deploykeys := [], users := [] }

/-- Observed remote state with two projects: id 1 with path a, and id 2
with name b under path x. -/
def gC4x : GitlabState :=
  { projects := [{ id := 1, name := "a", path_with_namespace := "a",
                   description := PyVal.vnone, enabled := PyVal.vbool true,
                   email := PyVal.vnone },
                 { id := 2, name := "b", path_with_namespace := "x",
                   description := PyVal.vnone, enabled := PyVal.vbool true,
                   email := PyVal.vnone }],
    hooks := [], deploykeys := [], users := [] }

/-- Observed remote state with one project and one user, used to
instantiate by-name and by-id resolution. -/
def gC4w : GitlabState :=
  { projects := [{ id := 1, name := "a", path_with_namespace := "ns/a",
                   description := PyVal.vnone, enabled := PyVal.vbool true,
                   email := PyVal.vnone }],
    hooks := [], deploykeys := [],
    users := [{ id := 7, name := "N", username := "nn", email := "n@x" }] }

/-- Observed remote state with one fully populated project and one
user, used to instantiate the carry-over update calls. -/
def gC5w : GitlabState :=
  { projects := [{ id := 1, name := "p", path_with_namespace := "ns/p",
                   description := PyVal.vstr "d", enabled := PyVal.vbool true,
                   email := PyVal.vstr "m" }],
    hooks := [], deploykeys := [],
    users := [{ id := 3, name := "N", username := "nn", email := "n@x" }] }

/-- Observed remote state with one existing user. -/
def gC8w : GitlabState :=
  { projects := [], hooks := [], deploykeys := [],
    users := [{ id := 4, name := "Old Name", username := "bob", email := "bob@x" }] }

/-- Observed remote state with one project whose description differs
from the desired one and whose enabled flag is True. -/
def gC9w : GitlabState :=
  { projects := [{ id := 9, name := "p", path_with_namespace := "p",
                   description := PyVal.vstr "old", enabled := PyVal.vbool true,
                   email := PyVal.vnone }],
    hooks := [], deploykeys := [], users := [] }

/-!  Helper lemmas about the scan loop and the call traces. -/

/-- A successful scan returns an element satisfying the predicate, and
it is the first such element in listing order. -/
theorem firstMatch_eq_some {α : Type} (f : α → Bool) (l : List α) (x : α)
    (h : firstMatch f l = some x) :
    f x = true ∧ ∃ l1 l2, l = l1 ++ x :: l2 ∧ ∀ y ∈ l1, f y = false := by
  induction l with
  | nil => simp [firstMatch] at h
  | cons a t ih =>
    by_cases hf : f a = true
    · simp only [firstMatch, if_pos hf] at h
      cases h
      exact ⟨hf, [], t, rfl, by intro y hy; cases hy⟩
    · simp only [firstMatch, if_neg hf] at h
      obtain ⟨hx, l1, l2, hl, hall⟩ := ih h
      refine ⟨hx, a :: l1, l2, by rw [hl, List.cons_append], ?_⟩
      intro y hy
      rcases List.mem_cons.mp hy with h1 | h2
      · rw [h1]; exact Bool.eq_false_iff.mpr hf
      · exact hall y h2

/-- A failed scan means no element satisfies the predicate. -/
theorem firstMatch_eq_none {α : Type} (f : α → Bool) (l : List α)
    (h : firstMatch f l = Option.none) : ∀ x ∈ l, f x = false := by
  induction l with
  | nil => intro x hx; cases hx
  | cons a t ih =>
    by_cases hf : f a = true
    · simp [firstMatch, if_pos hf] at h
    · simp only [firstMatch, if_neg hf] at h
      intro x hx
      rcases List.mem_cons.mp hx with h1 | h2
      · rw [h1]; exact Bool.eq_false_iff.mpr hf
      · exact ih h x h2

/-- A scan over a list containing a matching element succeeds. -/
theorem firstMatch_isSome_of_mem {α : Type} (f : α → Bool) (l : List α) (x : α)
    (hx : x ∈ l) (hfx : f x = true) : ∃ y, firstMatch f l = some y := by
  induction l with
  | nil => cases hx
  | cons a t ih =>
    by_cases hf : f a = true
    · exact ⟨a, by simp [firstMatch, hf]⟩
    · rcases List.mem_cons.mp hx with h1 | h2
      · rw [← h1] at hf; exact absurd hfx hf
      · obtain ⟨y, hy⟩ := ih h2
        exact ⟨y, by simp [firstMatch, hf, hy]⟩

/-- Mutating-call counts add over concatenated traces. -/
theorem mutCount_append (a b : List RemoteCall) :
    mutCount (a ++ b) = mutCount a + mutCount b := by
  simp [mutCount, List.filter_append]

/-- The auth trace never contains a mutating call. -/
theorem auth_filter (cfg : Cfg) (cargs : ConnArgs) :
    ((auth cfg cargs).2).filter RemoteCall.isMutating = [] := by
  unfold auth
  by_cases h : (authGet cfg cargs "token" PyVal.vnone).truthy = true
  · simp [h]
  · simp [h, RemoteCall.isMutating]

/-- The auth trace counts zero mutating calls. -/
theorem mutCount_auth (cfg : Cfg) (cargs : ConnArgs) :
    mutCount (auth cfg cargs).2 = 0 := by
  simp [mutCount, auth_filter]

/-- project_get only performs the auth calls. -/
theorem project_get_snd (g : GitlabState) (cfg : Cfg) (cargs : ConnArgs)
    (pid : Option PyVal) (n : Option String) :
    (project_get g cfg cargs pid n).2 = (auth cfg cargs).2 := by
  simp only [project_get]
  split <;> rfl

/-- hook_get only performs the auth calls. -/
theorem hook_get_snd (g : GitlabState) (cfg : Cfg) (cargs : ConnArgs) (u : String)
    (pid : Option PyVal) (pn : Option String) :
    (hook_get g cfg cargs u pid pn).2 = (auth cfg cargs).2 := by
  simp only [hook_get]
  split
  · rfl
  · split <;> rfl

/-- deploykey_get only performs the auth calls. -/
theorem deploykey_get_snd (g : GitlabState) (cfg : Cfg) (cargs : ConnArgs) (t : String)
    (pid : Option PyVal) (pn : Option String) :
    (deploykey_get g cfg cargs t pid pn).2 = (auth cfg cargs).2 := by
  simp only [deploykey_get]
  split
  · rfl
  · split <;> rfl

/-- user_get only performs the auth calls. -/
theorem user_get_snd (g : GitlabState) (cfg : Cfg) (cargs : ConnArgs)
    (uid : Option PyVal) (un : Option String) :
    (user_get g cfg cargs uid un).2 = (auth cfg cargs).2 := by
  simp only [user_get]
  split <;> rfl

/-- project_update issues at most one mutating call. -/
theorem mutCount_project_update_le (g : GitlabState) (cfg : Cfg) (cargs : ConnArgs)
    (a b c d : PyVal) :
    mutCount (project_update g cfg cargs a b c d).2 ≤ 1 := by
  simp only [project_update]
  repeat' split
  all_goals
    simp [mutCount_append, mutCount_auth, mutCount, RemoteCall.isMutating, auth_filter]

/-- project_delete issues at most one mutating call. -/
theorem mutCount_project_delete_le (g : GitlabState) (cfg : Cfg) (cargs : ConnArgs)
    (pid : Option PyVal) (n : Option String) (pr : PyVal) :
    mutCount (project_delete g cfg cargs pid n pr).2 ≤ 1 := by
  simp only [project_delete]
  repeat' split
  all_goals
    simp [mutCount_append, mutCount_auth, mutCount, RemoteCall.isMutating, auth_filter]

/-- project_create issues exactly one mutating call. -/
theorem mutCount_project_create (g : GitlabState) (cfg : Cfg) (cargs : ConnArgs)
    (n : String) (a b c : PyVal) :
    mutCount (project_create g cfg cargs n a b c).2 = 1 := by
  simp only [project_create]
  simp [mutCount_append, mutCount_auth, project_get_snd, mutCount, RemoteCall.isMutating,
    auth_filter, List.filter_append]

/-- hook_create issues at most one mutating call. -/
theorem mutCount_hook_create_le (g : GitlabState) (cfg : Cfg) (cargs : ConnArgs)
    (u : String) (a b c d : PyVal) (pid : Option PyVal) (pn : Option String) :
    mutCount (hook_create g cfg cargs u a b c d pid pn).2 ≤ 1 := by
  simp only [hook_create]
  repeat' split
  all_goals
    simp [mutCount_append, mutCount_auth, hook_get_snd, mutCount, RemoteCall.isMutating,
      auth_filter, List.filter_append]

/-- deploykey_create issues at most one mutating call. -/
theorem mutCount_deploykey_create_le (g : GitlabState) (cfg : Cfg) (cargs : ConnArgs)
    (t k : String) (pid : Option PyVal) (pn : Option String) :
    mutCount (deploykey_create g cfg cargs t k pid pn).2 ≤ 1 := by
  simp only [deploykey_create]
  repeat' split
  all_goals
    simp [mutCount_append, mutCount_auth, deploykey_get_snd, mutCount, RemoteCall.isMutating,
      auth_filter, List.filter_append]

/-- user_create issues exactly one mutating call. -/
theorem mutCount_user_create (g : GitlabState) (cfg : Cfg) (cargs : ConnArgs)
    (a b c d : PyVal) :
    mutCount (user_create g cfg cargs a b c d).2 = 1 := by
  simp only [user_create]
  repeat' split
  all_goals
    simp [mutCount_append, mutCount_auth, user_get_snd, mutCount, RemoteCall.isMutating,
      auth_filter, List.filter_append]

/-- user_update issues at most one mutating call. -/
theorem mutCount_user_update_le (g : GitlabState) (cfg : Cfg) (cargs : ConnArgs)
    (a b c d e : PyVal) :
    mutCount (user_update g cfg cargs a b c d e).2 ≤ 1 := by
  simp only [user_update]
  repeat' split
  all_goals
    simp [mutCount_append, mutCount_auth, mutCount, RemoteCall.isMutating, auth_filter,
      List.filter_append]

/-- C1, counterexample: on a project whose description and enabled flag
both differ from the desired state, one project_present invocation
issues two mutating remote calls (two gitlab.project_update calls), so
the entry points do not all stay within one corrective call. -/
theorem C1_counterexample :
    mutCount (project_present gC1 [] [] "p" (PyVal.vstr "new")
      (PyVal.vbool true) PyVal.vnone).2 = 2 := by
  rfl

/-- C1, amended: per invocation, project_absent, hook_present,
deploykey_present, user_present and branch_present issue at most one
mutating remote call, while project_present issues at most two (one per
differing tracked field, since the description check and the enabled
check each trigger their own update call). -/
theorem C1_amended (g : GitlabState) (cfg : Cfg) (cargs : ConnArgs) (fs : String → String)
    (name project username ref key : String)
    (description enabled profile nm email password : PyVal) :
    mutCount (project_absent g cfg cargs name profile).2 ≤ 1 ∧
    mutCount (hook_present g cfg cargs name project).2 ≤ 1 ∧
    mutCount (deploykey_present g cfg cargs fs name key project).2 ≤ 1 ∧
    mutCount (user_present g cfg cargs username nm email password).2 ≤ 1 ∧
    mutCount (branch_present g cfg cargs project name ref).2 ≤ 1 ∧
    mutCount (project_present g cfg cargs name description enabled profile).2 ≤ 2 := by
  refine ⟨?_, ?_, ?_, ?_, ?_, ?_⟩
  · simp only [project_absent]
    split
    · simp [project_get_snd, mutCount_auth]
    · simp only [mutCount_append, project_get_snd, mutCount_auth, Nat.zero_add]
      exact mutCount_project_delete_le g cfg cargs Option.none (some name) profile
  · simp only [hook_present]
    split
    · simp [hook_get_snd, mutCount_auth]
    · simp only [mutCount_append, hook_get_snd, mutCount_auth, Nat.zero_add]
      apply mutCount_hook_create_le
  · simp only [deploykey_present]
    split
    · simp [deploykey_get_snd, mutCount_auth]
    · simp only [mutCount_append, deploykey_get_snd, mutCount_auth, Nat.zero_add]
      apply mutCount_deploykey_create_le
  · simp only [user_present]
    repeat' split
    all_goals simp only [mutCount_append, user_get_snd, mutCount_auth, Nat.zero_add]
    all_goals first
      | simp
      | apply mutCount_user_update_le
      | exact Nat.le_of_eq (mutCount_user_create _ _ _ _ _ _ _)
  · simp [branch_present, mutCount]
  · have h1 := mutCount_project_update_le g cfg (cargs ++ [("profile", profile)])
      (PyVal.vstr name) description enabled PyVal.vnone
    have h2 := mutCount_project_create g cfg cargs name description enabled profile
    simp only [project_present]
    repeat' split
    all_goals simp only [mutCount_append, project_get_snd, mutCount_auth, Nat.zero_add]
    all_goals omega

/-- C3, counterexample: with an empty remote, resolving project p fails
(project_get returns the Error dictionary), yet project_present does
not surface the failure: it takes the create branch, issues a mutating
create call and returns result true with an added comment instead of
result false with the error in the comment. -/
theorem C3_counterexample :
    (project_get gEmpty [] [] Option.none (some "p")).1 =
      GetRet.error "Error in retrieving project" ∧
    (project_present gEmpty [] [] "p" PyVal.vnone (PyVal.vbool true) PyVal.vnone).1 =
      Except.ok { name := PyVal.vstr "p", changes := [("Tenant", "Created")], result := true,
                  comment := "Tenant \"p\" has been added" } ∧
    mutCount (project_present gEmpty [] [] "p" PyVal.vnone (PyVal.vbool true) PyVal.vnone).2
      = 1 := by
  exact ⟨rfl, rfl, rfl⟩

/-- C3, amended: the reconciler entry points never report failure:
every result record they return carries result true; a failed resolve
is treated as the resource being absent (the present entry points then
take their create branch), and the outcome of mutating calls never
reaches the result field. -/
theorem C3_amended (g : GitlabState) (cfg : Cfg) (cargs : ConnArgs) (fs : String → String)
    (name project username ref key : String)
    (description enabled profile nm email password : PyVal) :
    resultFlagOk (project_present g cfg cargs name description enabled profile) = true ∧
    resultFlagOk (project_absent g cfg cargs name profile) = true ∧
    resultFlagOk (hook_present g cfg cargs name project) = true ∧
    resultFlagOk (deploykey_present g cfg cargs fs name key project) = true ∧
    resultFlagOk (user_present g cfg cargs username nm email password) = true ∧
    resultFlagOk (deploykey_absent g cfg cargs name profile) = true ∧
    resultFlagOk (branch_present g cfg cargs project name ref) = true := by
  refine ⟨?_, ?_, ?_, ?_, ?_, ?_, ?_⟩ <;>
    · simp only [project_present, project_absent, hook_present, deploykey_present,
        user_present, deploykey_absent, branch_present]
      repeat' split
      all_goals simp [resultFlagOk]

/-- C2, counterexample: a user whose tracked attributes all equal the
desired ones still triggers one mutating remote call from user_present
(the unconditional gitlab.user_update), and the comment reports an
update, not that the user already exists. -/
theorem C2_counterexample :
    mutCount (user_present gC2x [] [] "u" (PyVal.vstr "n") (PyVal.vstr "e") PyVal.vnone).2
      = 1 ∧
    (user_present gC2x [] [] "u" (PyVal.vstr "n") (PyVal.vstr "e") PyVal.vnone).1 =
      Except.ok { name := PyVal.vstr "n", changes := [], result := true,
                  comment := "User \"n\" has been updated and debug email e" } := by
  exact ⟨rfl, rfl⟩

/-- C2, amended: for project_present (when the resolved project is also
keyed by the supplied name), hook_present and deploykey_present, a
resource that exists with tracked attributes identical to the desired
ones yields empty changes, an already-exists comment and no mutating
remote call, so an immediate identical re-run is again a no-op;
user_present is excluded because it issues an unconditional user_update
whenever the user exists. -/
theorem C2_amended (g : GitlabState) (cfg : Cfg) (cargs : ConnArgs) (fs : String → String)
    (pname hproject kproject hurl dkname dkkey : String)
    (description enabled profile : PyVal) (p pr pr2 : Project) (hk : Hook) (dk : DeployKey) :
    (pname ≠ "" → pname ≠ "Error" → _get_project_by_name g pname = some p →
     p.name = pname → p.description = description → p.enabled = enabled →
     project_present g cfg cargs pname description enabled profile =
       (Except.ok { name := PyVal.vstr pname, changes := [], result := true,
                    comment := "Tenant \"" ++ pname ++ "\" already exists" },
        (auth cfg cargs).2) ∧
     mutCount (project_present g cfg cargs pname description enabled profile).2 = 0) ∧
    (hproject ≠ "" → hurl ≠ "Error" → _get_project_by_name g hproject = some pr →
     firstMatch (fun hook => hook.url == hurl) (getprojecthooks g pr.id) = some hk →
     hook_present g cfg cargs hurl hproject =
       (Except.ok { name := PyVal.vstr hurl, changes := [], result := true,
                    comment := "Hook \"" ++ hurl ++ "\" already exists in project "
                      ++ hproject },
        (auth cfg cargs).2) ∧
     mutCount (hook_present g cfg cargs hurl hproject).2 = 0) ∧
    (kproject ≠ "" → dkname ≠ "Error" → _get_project_by_name g kproject = some pr2 →
     firstMatch (fun dkey => dkey.title == dkname) (getdeploykeys g pr2.id) = some dk →
     deploykey_present g cfg cargs fs dkname dkkey kproject =
       (Except.ok { name := PyVal.vstr dkname, changes := [], result := true,
                    comment := "Deploy key \"" ++ dkname ++ "\" already exists in project "
                      ++ kproject },
        (auth cfg cargs).2) ∧
     mutCount (deploykey_present g cfg cargs fs dkname dkkey kproject).2 = 0) := by
  refine ⟨?_, ?_, ?_⟩
  · intro h0 h1 h2 h3 h4 h5
    have htS : truthyS (some pname) = true := by simp [truthyS, h0]
    have hpg : project_get g cfg cargs Option.none (some pname)
        = (GetRet.entry pname p, (auth cfg cargs).2) := by
      simp only [project_get, htS, if_true, Option.getD_some, h2, h3]
    have hErr : (pname == "Error") = false := by simp [h1]
    have hmain : project_present g cfg cargs pname description enabled profile =
        (Except.ok { name := PyVal.vstr pname, changes := [], result := true,
                     comment := "Tenant \"" ++ pname ++ "\" already exists" },
         (auth cfg cargs).2) := by
      simp only [project_present, hpg, GetRet.hasError, GetRet.lookup, hErr,
        Bool.false_eq_true, if_false, beq_self_eq_true, if_true, h4, h5]
      simp
    exact ⟨hmain, by rw [hmain]; exact mutCount_auth cfg cargs⟩
  · intro h0 h1 h2 h3
    have htS : truthyS (some hproject) = true := by simp [truthyS, h0]
    have hku : hk.url = hurl := by
      have := (firstMatch_eq_some _ _ _ h3).1
      simpa using this
    have hhg : hook_get g cfg cargs hurl Option.none (some hproject)
        = (GetRet.entry hurl hk, (auth cfg cargs).2) := by
      simp only [hook_get, htS, if_true, Option.getD_some, h2, h3, hku]
    have hErr : (hurl == "Error") = false := by simp [h1]
    have hmain : hook_present g cfg cargs hurl hproject =
        (Except.ok { name := PyVal.vstr hurl, changes := [], result := true,
                     comment := "Hook \"" ++ hurl ++ "\" already exists in project "
                       ++ hproject },
         (auth cfg cargs).2) := by
      simp only [hook_present, hhg, GetRet.hasError, hErr, if_true]
    exact ⟨hmain, by rw [hmain]; exact mutCount_auth cfg cargs⟩
  · intro h0 h1 h2 h3
    have htS : truthyS (some kproject) = true := by simp [truthyS, h0]
    have hdt : dk.title = dkname := by
      have := (firstMatch_eq_some _ _ _ h3).1
      simpa using this
    have hdg : deploykey_get g cfg cargs dkname Option.none (some kproject)
        = (GetRet.entry dkname dk, (auth cfg cargs).2) := by
      simp only [deploykey_get, htS, if_true, Option.getD_some, h2, h3, hdt]
    have hErr : (dkname == "Error") = false := by simp [h1]
    have hmain : deploykey_present g cfg cargs fs dkname dkkey kproject =
        (Except.ok { name := PyVal.vstr dkname, changes := [], result := true,
                     comment := "Deploy key \"" ++ dkname ++ "\" already exists in project "
                       ++ kproject },
         (auth cfg cargs).2) := by
      simp only [deploykey_present, hdg, GetRet.hasError, hErr, if_true]
    exact ⟨hmain, by rw [hmain]; exact mutCount_auth cfg cargs⟩

/-- C2, witness: the amended no-op behaviour instantiated on a concrete
remote holding a matching project, hook and deploy key. -/
theorem C2_amended_witness :
    (project_present gC2w [] [] "p" (PyVal.vstr "d") (PyVal.vbool true) PyVal.vnone =
       (Except.ok { name := PyVal.vstr "p", changes := [], result := true,
                    comment := "Tenant \"p\" already exists" }, (auth [] []).2) ∧
     mutCount (project_present gC2w [] [] "p" (PyVal.vstr "d") (PyVal.vbool true)
       PyVal.vnone).2 = 0) ∧
    (hook_present gC2w [] [] "h" "p" =
       (Except.ok { name := PyVal.vstr "h", changes := [], result := true,
                    comment := "Hook \"h\" already exists in project p" }, (auth [] []).2) ∧
     mutCount (hook_present gC2w [] [] "h" "p").2 = 0) ∧
    (deploykey_present gC2w [] [] (fun _ => "") "k" "K" "p" =
       (Except.ok { name := PyVal.vstr "k", changes := [], result := true,
                    comment := "Deploy key \"k\" already exists in project p" },
        (auth [] []).2) ∧
     mutCount (deploykey_present gC2w [] [] (fun _ => "") "k" "K" "p").2 = 0) := by
  have h := C2_amended gC2w [] [] (fun _ => "") "p" "p" "p" "h" "k" "K"
    (PyVal.vstr "d") (PyVal.vbool true) PyVal.vnone
    { id := 1, name := "p", path_with_namespace := "p",
      description := PyVal.vstr "d", enabled := PyVal.vbool true, email := PyVal.vnone }
    { id := 1, name := "p", path_with_namespace := "p",
      description := PyVal.vstr "d", enabled := PyVal.vbool true, email := PyVal.vnone }
    { id := 1, name := "p", path_with_namespace := "p",
      description := PyVal.vstr "d", enabled := PyVal.vbool true, email := PyVal.vnone }
    { id := 5, url := "h" } { id := 6, title := "k", key := "K" }
  exact ⟨h.1 (by decide) (by decide) rfl rfl rfl rfl,
         h.2.1 (by decide) (by decide) rfl rfl,
         h.2.2 (by decide) (by decide) rfl rfl⟩

/-- C4, counterexample: with project id 1 resolvable directly, calling
project_get with both the identifier 1 and the name x does not use the
direct lookup: the listing is scanned by name and the project with id 2
is returned, so a supplied identifier does not bypass the listing. -/
theorem C4_counterexample :
    (project_get gC4x [] [] (some (PyVal.vint 1)) (some "x")).1 =
      GetRet.entry "b" { id := 2, name := "b", path_with_namespace := "x",
                         description := PyVal.vnone, enabled := PyVal.vbool true,
                         email := PyVal.vnone } ∧
    getproject gC4x (PyVal.vint 1) =
      some { id := 1, name := "a", path_with_namespace := "a",
             description := PyVal.vnone, enabled := PyVal.vbool true,
             email := PyVal.vnone } := by
  exact ⟨rfl, rfl⟩

/-- C4, amended: the name takes precedence, not the identifier: when a
truthy name is supplied the accessors ignore any supplied identifier
and scan the full listing, returning the first entry whose
path/username exactly equals the requested name, or an Error dictionary
when none matches; the direct identifier lookup is used only when no
truthy name is supplied, returning the listed resource with that id or
an Error dictionary. -/
theorem C4_amended (g : GitlabState) (cfg : Cfg) (cargs : ConnArgs)
    (pid pid2 : Option PyVal) (n un hurl dktitle : String) (i : Nat) :
    (truthyS (some n) = true →
     project_get g cfg cargs pid (some n) = project_get g cfg cargs pid2 (some n) ∧
     user_get g cfg cargs pid (some n) = user_get g cfg cargs pid2 (some n) ∧
     hook_get g cfg cargs hurl pid (some n) = hook_get g cfg cargs hurl pid2 (some n) ∧
     deploykey_get g cfg cargs dktitle pid (some n) =
       deploykey_get g cfg cargs dktitle pid2 (some n)) ∧
    (∀ p : Project, _get_project_by_name g n = some p →
     p.path_with_namespace = n ∧
     ∃ l1 l2, g.projects = l1 ++ p :: l2 ∧ ∀ q ∈ l1, q.path_with_namespace ≠ n) ∧
    ((∀ q ∈ g.projects, q.path_with_namespace ≠ n) → truthyS (some n) = true →
     (project_get g cfg cargs pid (some n)).1 =
       GetRet.error "Error in retrieving project") ∧
    (∀ u : User, _get_user_by_name g un = some u →
     u.username = un ∧
     ∃ l1 l2, g.users = l1 ++ u :: l2 ∧ ∀ w ∈ l1, w.username ≠ un) ∧
    (∀ (k : String) (v : Project),
     (project_get g cfg cargs (some (PyVal.vint i)) Option.none).1 = GetRet.entry k v →
     v.id = i ∧ v ∈ g.projects) ∧
    ((∀ q ∈ g.projects, q.id ≠ i) →
     (project_get g cfg cargs (some (PyVal.vint i)) Option.none).1 =
       GetRet.error "Error in retrieving project") := by
  refine ⟨?_, ?_, ?_, ?_, ?_, ?_⟩
  · intro htS
    refine ⟨?_, ?_, ?_, ?_⟩ <;> simp [project_get, user_get, hook_get, deploykey_get, htS]
  · intro p hp
    obtain ⟨hpred, l1, l2, hl, hall⟩ := firstMatch_eq_some _ _ _ hp
    refine ⟨by simpa using hpred, l1, l2, by simpa [getprojects] using hl, ?_⟩
    intro q hq
    simpa using hall q hq
  · intro hnone htS
    have hfm : firstMatch (fun project => project.path_with_namespace == n)
        (getprojects g) = Option.none := by
      cases hfm : firstMatch (fun project => project.path_with_namespace == n)
          (getprojects g) with
      | none => rfl
      | some q =>
        obtain ⟨hpred, l1, l2, hl, _⟩ := firstMatch_eq_some _ _ _ hfm
        have hmem : q ∈ g.projects := by
          rw [show g.projects = l1 ++ q :: l2 from by simpa [getprojects] using hl]
          simp
        exact absurd (by simpa using hpred) (hnone q hmem)
    simp [project_get, htS, _get_project_by_name, hfm]
  · intro u hu
    obtain ⟨hpred, l1, l2, hl, hall⟩ := firstMatch_eq_some _ _ _ hu
    refine ⟨by simpa using hpred, l1, l2, by simpa [getusers] using hl, ?_⟩
    intro w hw
    simpa using hall w hw
  · intro k v h
    rw [show project_get g cfg cargs (some (PyVal.vint i)) Option.none
        = (match g.projects.find? (fun p => p.id == i) with
           | Option.none => (GetRet.error "Error in retrieving project", (auth cfg cargs).2)
           | some project => (GetRet.entry project.name project, (auth cfg cargs).2))
      from rfl] at h
    cases hf : g.projects.find? (fun p => p.id == i) with
    | none => rw [hf] at h; simp at h
    | some q =>
      rw [hf] at h
      simp only [GetRet.entry.injEq] at h
      obtain ⟨-, hv⟩ := h
      have hq1 := List.find?_some hf
      have hq2 : q ∈ g.projects := List.mem_of_find?_eq_some hf
      subst hv
      exact ⟨by simpa using hq1, hq2⟩
  · intro hnone
    have hf : g.projects.find? (fun p => p.id == i) = Option.none := by
      rw [List.find?_eq_none]
      intro a ha
      simp [hnone a ha]
    simp [project_get, truthyS, _get_project_by_id, getproject, hf]

/-- C4, witness: the amended resolution behaviour instantiated on a
concrete remote, both for a name that resolves (the identifier is
ignored, the first match is returned, the direct id lookup is
characterized) and for a name and id with no match (Error). -/
theorem C4_amended_witness :
    (project_get gC4w [] [] (some (PyVal.vint 99)) (some "ns/a") =
       project_get gC4w [] [] Option.none (some "ns/a")) ∧
    ({ id := 1, name := "a", path_with_namespace := "ns/a", description := PyVal.vnone,
       enabled := PyVal.vbool true, email := PyVal.vnone : Project }.path_with_namespace
         = "ns/a" ∧
     ∃ l1 l2, gC4w.projects = l1 ++
       { id := 1, name := "a", path_with_namespace := "ns/a", description := PyVal.vnone,
         enabled := PyVal.vbool true, email := PyVal.vnone : Project } :: l2 ∧
       ∀ q ∈ l1, q.path_with_namespace ≠ "ns/a") ∧
    ({ id := 7, name := "N", username := "nn", email := "n@x" : User }.username = "nn" ∧
     ∃ l1 l2, gC4w.users = l1 ++
       { id := 7, name := "N", username := "nn", email := "n@x" : User } :: l2 ∧
       ∀ w ∈ l1, w.username ≠ "nn") ∧
    ({ id := 1, name := "a", path_with_namespace := "ns/a", description := PyVal.vnone,
       enabled := PyVal.vbool true, email := PyVal.vnone : Project }.id = 1 ∧
     { id := 1, name := "a", path_with_namespace := "ns/a", description := PyVal.vnone,
       enabled := PyVal.vbool true, email := PyVal.vnone : Project } ∈ gC4w.projects) ∧
    ((project_get gC4w [] [] (some (PyVal.vint 99)) (some "zz")).1 =
       GetRet.error "Error in retrieving project") ∧
    ((project_get gC4w [] [] (some (PyVal.vint 5)) Option.none).1 =
       GetRet.error "Error in retrieving project") := by
  have h1 := C4_amended gC4w [] [] (some (PyVal.vint 99)) Option.none "ns/a" "nn" "h" "k" 1
  have h2 := C4_amended gC4w [] [] (some (PyVal.vint 99)) Option.none "zz" "nn" "h" "k" 5
  refine ⟨(h1.1 (by decide)).1, h1.2.1 _ rfl, h1.2.2.2.1 _ rfl, ?_, ?_, ?_⟩
  · exact h1.2.2.2.2.1 "a" _ rfl
  · exact h2.2.2.1 (by decide) (by decide)
  · exact h2.2.2.2.2.2 (by decide)

/-- C5: in project_update and user_update (called with a truthy,
resolvable id), attribute arguments left as None are replaced by the
values just read from the remote resource before the single mutating
update call, so unspecified attributes are never cleared. -/
theorem C5_carryover (g : GitlabState) (cfg : Cfg) (cargs : ConnArgs)
    (project_id nm em en user_id unm uun upw uem : PyVal) (p : Project) (u : User)
    (hp1 : project_id.truthy = true) (hp2 : projectsGet g project_id = some p)
    (hu1 : user_id.truthy = true) (hu2 : getuser g user_id = some u) :
    (∃ n2 e2 en2,
      (project_update g cfg cargs project_id nm em en).1 = Except.ok UpdRet.okNone ∧
      ((project_update g cfg cargs project_id nm em en).2).filter RemoteCall.isMutating
        = [RemoteCall.projectsUpdate project_id n2 e2 en2] ∧
      (nm = PyVal.vnone → n2 = PyVal.vstr p.name) ∧
      (em = PyVal.vnone → e2 = p.email) ∧
      (en = PyVal.vnone → en2 = p.enabled)) ∧
    (∃ n2 un2 e2 pw2,
      (user_update g cfg cargs user_id unm uun upw uem).1 = Except.ok true ∧
      ((user_update g cfg cargs user_id unm uun upw uem).2).filter RemoteCall.isMutating
        = [RemoteCall.edituser user_id n2 un2 e2 pw2] ∧
      (unm = PyVal.vnone → n2 = PyVal.vstr u.name) ∧
      (uun = PyVal.vnone → un2 = PyVal.vstr u.username) ∧
      (uem = PyVal.vnone → e2 = PyVal.vstr u.email)) := by
  constructor
  · have hred : project_update g cfg cargs project_id nm em en
        = (Except.ok UpdRet.okNone, (auth cfg cargs).2 ++
            [RemoteCall.projectsUpdate project_id
              (if nm.truthy then nm else PyVal.vstr p.name)
              (if em.truthy then em else p.email)
              (if en == PyVal.vnone then p.enabled else en)]) := by
      simp [project_update, hp1, hp2]
    refine ⟨if nm.truthy then nm else PyVal.vstr p.name,
            if em.truthy then em else p.email,
            if en == PyVal.vnone then p.enabled else en, ?_, ?_, ?_, ?_, ?_⟩
    · rw [hred]
    · rw [hred]
      simp [List.filter_append, auth_filter, RemoteCall.isMutating]
    · intro h; subst h; simp [PyVal.truthy]
    · intro h; subst h; simp [PyVal.truthy]
    · intro h; subst h; simp
  · have hred : user_update g cfg cargs user_id unm uun upw uem
        = (Except.ok true, (auth cfg cargs).2 ++
            [RemoteCall.edituser user_id
              (if unm.truthy then unm else PyVal.vstr u.name)
              (if uun.truthy then uun else PyVal.vstr u.username)
              (if uem.truthy then uem else PyVal.vstr u.email)
              (if upw.truthy then some upw else Option.none)]) := by
      by_cases hpw : upw.truthy = true <;> simp [user_update, hu1, hu2, hpw]
    refine ⟨if unm.truthy then unm else PyVal.vstr u.name,
            if uun.truthy then uun else PyVal.vstr u.username,
            if uem.truthy then uem else PyVal.vstr u.email,
            if upw.truthy then some upw else Option.none, ?_, ?_, ?_, ?_, ?_⟩
    · rw [hred]
    · rw [hred]
      simp [List.filter_append, auth_filter, RemoteCall.isMutating]
    · intro h; subst h; simp [PyVal.truthy]
    · intro h; subst h; simp [PyVal.truthy]
    · intro h; subst h; simp [PyVal.truthy]

/-- C5, witness: the carry-over behaviour instantiated on a concrete
project and user with every attribute argument left as None. -/
theorem C5_carryover_witness :
    (∃ n2 e2 en2,
      (project_update gC5w [] [] (PyVal.vint 1) PyVal.vnone PyVal.vnone PyVal.vnone).1
        = Except.ok UpdRet.okNone ∧
      ((project_update gC5w [] [] (PyVal.vint 1) PyVal.vnone PyVal.vnone
          PyVal.vnone).2).filter RemoteCall.isMutating
        = [RemoteCall.projectsUpdate (PyVal.vint 1) n2 e2 en2] ∧
      (PyVal.vnone = PyVal.vnone → n2 = PyVal.vstr "p") ∧
      (PyVal.vnone = PyVal.vnone → e2 = PyVal.vstr "m") ∧
      (PyVal.vnone = PyVal.vnone → en2 = PyVal.vbool true)) ∧
    (∃ n2 un2 e2 pw2,
      (user_update gC5w [] [] (PyVal.vint 3) PyVal.vnone PyVal.vnone PyVal.vnone
         PyVal.vnone).1 = Except.ok true ∧
      ((user_update gC5w [] [] (PyVal.vint 3) PyVal.vnone PyVal.vnone PyVal.vnone
          PyVal.vnone).2).filter RemoteCall.isMutating
        = [RemoteCall.edituser (PyVal.vint 3) n2 un2 e2 pw2] ∧
      (PyVal.vnone = PyVal.vnone → n2 = PyVal.vstr "N") ∧
      (PyVal.vnone = PyVal.vnone → un2 = PyVal.vstr "nn") ∧
      (PyVal.vnone = PyVal.vnone → e2 = PyVal.vstr "n@x")) := by
  exact C5_carryover gC5w [] [] (PyVal.vint 1) PyVal.vnone PyVal.vnone PyVal.vnone
    (PyVal.vint 3) PyVal.vnone PyVal.vnone PyVal.vnone PyVal.vnone
    { id := 1, name := "p", path_with_namespace := "ns/p", description := PyVal.vstr "d",
      enabled := PyVal.vbool true, email := PyVal.vstr "m" }
    { id := 3, name := "N", username := "nn", email := "n@x" }
    (by decide) rfl (by decide) rfl

/-- C6: deploykey_absent resolves gitlab.service_get before doing
anything remote, and src/modules/gitlab.py defines no service_get, so
on any input (here the title mykey against an empty remote) the call
aborts with a missing-function loader error, issuing no mutating remote
call and returning no result record. -/
theorem C6_service_get_missing :
    (deploykey_absent gEmpty [] [] "mykey" PyVal.vnone).1 =
      Except.error (Err.missingFunction "gitlab.service_get") ∧
    mutCount (deploykey_absent gEmpty [] [] "mykey" PyVal.vnone).2 = 0 ∧
    "service_get" ∉ gitlabModuleFunctions := by
  exact ⟨rfl, rfl, by decide⟩

/-- C7: when the resolved token value (from connection arguments or
configuration) is truthy, auth establishes the session with that token
and makes no login call, so the password path is not taken even when a
username and password are also supplied. -/
theorem C7_token_precedence (cfg : Cfg) (cargs : ConnArgs)
    (h : (authGet cfg cargs "token" PyVal.vnone).truthy = true) :
    (auth cfg cargs).1.token = some (authGet cfg cargs "token" PyVal.vnone) ∧
    (auth cfg cargs).2 = [] := by
  simp [auth, h]

/-- C7, witness: a configuration supplying both a token and a
username/password pair yields a token session and no login call. -/
theorem C7_token_precedence_witness :
    (auth [("gitlab.token", PyVal.vstr "sek"), ("gitlab.user", PyVal.vstr "u"),
           ("gitlab.password", PyVal.vstr "pw")] []).1.token = some (PyVal.vstr "sek") ∧
    (auth [("gitlab.token", PyVal.vstr "sek"), ("gitlab.user", PyVal.vstr "u"),
           ("gitlab.password", PyVal.vstr "pw")] []).2 = [] := by
  have h := C7_token_precedence [("gitlab.token", PyVal.vstr "sek"),
    ("gitlab.user", PyVal.vstr "u"), ("gitlab.password", PyVal.vstr "pw")] [] (by decide)
  exact ⟨h.1.trans (by decide), h.2⟩

/-- C8: whenever user_present finds the user already existing, it
unconditionally issues exactly one mutating remote call, a user_update
whose email slot is the literal string foo@bar.com, whatever email
argument the caller supplied. -/
theorem C8_debug_email (g : GitlabState) (cfg : Cfg) (cargs : ConnArgs)
    (username : String) (name email password : PyVal) (u : User)
    (h0 : username ≠ "") (h1 : username ≠ "Error")
    (h2 : _get_user_by_name g username = some u) (h3 : u.id ≠ 0) :
    ∃ n2 un2 pw2,
      (user_present g cfg cargs username name email password).2.filter
        RemoteCall.isMutating
        = [RemoteCall.edituser (PyVal.vint u.id) n2 un2 (PyVal.vstr "foo@bar.com") pw2] := by
  have huu : u.username = username := by
    have := (firstMatch_eq_some _ _ _ h2).1
    simpa using this
  have htS : truthyS (some username) = true := by simp [truthyS, h0]
  have hug : user_get g cfg cargs Option.none (some username)
      = (GetRet.entry username u, (auth cfg cargs).2) := by
    simp only [user_get, htS, if_true, Option.getD_some, h2, huu]
  have hErr : (username == "Error") = false := by simp [h1]
  have hmem : u ∈ g.users := by
    obtain ⟨-, l1, l2, hl, -⟩ := firstMatch_eq_some _ _ _ h2
    rw [show g.users = l1 ++ u :: l2 from by simpa [getusers] using hl]
    simp
  obtain ⟨u2, hu2⟩ : ∃ u2, g.users.find? (fun x => x.id == u.id) = some u2 := by
    cases hf : g.users.find? (fun x => x.id == u.id) with
    | some u2 => exact ⟨u2, rfl⟩
    | none =>
      have := List.find?_eq_none.mp hf u hmem
      simp at this
  have htr : (PyVal.vint u.id).truthy = true := by simp [PyVal.truthy, h3]
  have htu : (PyVal.vstr username).truthy = true := by simp [PyVal.truthy, h0]
  have hfb : (PyVal.vstr "foo@bar.com").truthy = true := by decide
  have hredu : user_update g cfg cargs (PyVal.vint u.id) name (PyVal.vstr username)
      password (PyVal.vstr "foo@bar.com")
      = (Except.ok true, (auth cfg cargs).2 ++
          [RemoteCall.edituser (PyVal.vint u.id)
            (if name.truthy then name else PyVal.vstr u2.name)
            (PyVal.vstr username)
            (PyVal.vstr "foo@bar.com")
            (if password.truthy then some password else Option.none)]) := by
    by_cases hpw : password.truthy = true <;>
      simp [user_update, getuser, htr, hu2, hpw, htu, hfb]
  refine ⟨if name.truthy then name else PyVal.vstr u2.name, PyVal.vstr username,
          if password.truthy then some password else Option.none, ?_⟩
  simp only [user_present, hug, GetRet.hasError, hErr, GetRet.lookup, beq_self_eq_true,
    if_true, eq_self_iff_true, hredu]
  simp [List.filter_append, auth_filter, RemoteCall.isMutating]

/-- C8, witness: on a concrete existing user, user_present with a real
email argument still sends foo@bar.com in the update call. -/
theorem C8_debug_email_witness :
    ∃ n2 un2 pw2,
      (user_present gC8w [] [] "bob" (PyVal.vstr "New") (PyVal.vstr "real@x")
         PyVal.vnone).2.filter RemoteCall.isMutating
        = [RemoteCall.edituser (PyVal.vint 4) n2 un2 (PyVal.vstr "foo@bar.com") pw2] := by
  exact C8_debug_email gC8w [] [] "bob" (PyVal.vstr "New") (PyVal.vstr "real@x")
    PyVal.vnone { id := 4, name := "Old Name", username := "bob", email := "bob@x" }
    (by decide) (by decide) rfl (by decide)

/-- C9: in the update branch of project_present the three positional
arguments bind to project_id, name and email of project_update, so the
single remote update call carries the state name in its project_id
slot, the desired description in its name slot and the enabled flag in
its email slot; the description field itself is never updated (the
update call has no description slot). -/
theorem C9_swapped_update_args (g : GitlabState) (cfg : Cfg) (cargs : ConnArgs)
    (name s : String) (profile : PyVal) (p : Project)
    (h0 : name ≠ "") (h1 : name ≠ "Error")
    (h2 : _get_project_by_name g name = some p) (h3 : p.name = name)
    (h4 : p.description ≠ PyVal.vstr s) (h5 : s ≠ "")
    (h6 : p.enabled = PyVal.vbool true) :
    (project_present g cfg cargs name (PyVal.vstr s) (PyVal.vbool true)
       profile).2.filter RemoteCall.isMutating
      = [RemoteCall.projectsUpdate (PyVal.vstr name) (PyVal.vstr s) (PyVal.vbool true)
          (PyVal.vbool true)] := by
  have htS : truthyS (some name) = true := by simp [truthyS, h0]
  have hpg : project_get g cfg cargs Option.none (some name)
      = (GetRet.entry name p, (auth cfg cargs).2) := by
    simp only [project_get, htS, if_true, Option.getD_some, h2, h3]
  have hErr : (name == "Error") = false := by simp [h1]
  have ht1 : (PyVal.vstr name).truthy = true := by simp [PyVal.truthy, h0]
  have ht2 : (PyVal.vstr s).truthy = true := by simp [PyVal.truthy, h5]
  have hupd : project_update g cfg (cargs ++ [("profile", profile)]) (PyVal.vstr name)
      (PyVal.vstr s) (PyVal.vbool true) PyVal.vnone
      = (Except.ok UpdRet.okNone, (auth cfg (cargs ++ [("profile", profile)])).2 ++
          [RemoteCall.projectsUpdate (PyVal.vstr name) (PyVal.vstr s) (PyVal.vbool true)
            (PyVal.vbool true)]) := by
    simp [project_update, PyVal.truthy, projectsGet, h0, h5, h2, h6]
  simp only [project_present, hpg, GetRet.hasError, hErr, GetRet.lookup, beq_self_eq_true,
    if_true, eq_self_iff_true, h4, hupd]
  simp only [ne_eq, h4, not_false_eq_true, if_true, h6]
  simp [List.filter_append, auth_filter, RemoteCall.isMutating]

/-- C9, witness: on a concrete project whose description differs, the
one update call issued by project_present carries the description svc
in the name slot and True in the email slot. -/
theorem C9_swapped_update_args_witness :
    (project_present gC9w [] [] "p" (PyVal.vstr "svc") (PyVal.vbool true)
       PyVal.vnone).2.filter RemoteCall.isMutating
      = [RemoteCall.projectsUpdate (PyVal.vstr "p") (PyVal.vstr "svc") (PyVal.vbool true)
          (PyVal.vbool true)] := by
  exact C9_swapped_update_args gC9w [] [] "p" "svc" PyVal.vnone
    { id := 9, name := "p", path_with_namespace := "p", description := PyVal.vstr "old",
      enabled := PyVal.vbool true, email := PyVal.vnone }
    (by decide) (by decide) rfl rfl (by decide) (by decide) rfl

/-- C10: project_create passes the literal True as the enabled value of
the remote create call, for every enabled argument (including False):
its single mutating call is a createproject whose enabled slot is
True. -/
theorem C10_enabled_forced (g : GitlabState) (cfg : Cfg) (cargs : ConnArgs)
    (name : String) (description enabled profile : PyVal) :
    (project_create g cfg cargs name description enabled profile).2.filter
      RemoteCall.isMutating
      = [RemoteCall.createproject name description (PyVal.vbool true) profile] := by
  simp [project_create, List.filter_append, auth_filter, project_get_snd,
    RemoteCall.isMutating]

end Gitlab
